import Mathlib

/-!
# SAML session identity resolution and scope audience resolution

A shallow embedding of `internal/idp/providers/saml/session.go` (the SAML
implementation of `idp.Session`) and of the scope resolver exercised by
`internal/domain/token_test.go`.

Conventions of the embedding:

* a Go pointer that may be nil is an `Option`;
* a Go `error` interface value is a `GoError`, whose constructor `GoError.nil`
  is the nil interface;
* a Go function that can panic (nil dereference, index out of range) returns an
  `Option`, `none` being the panic;
* a Go `map[string][]string` is an association list with unique keys, read only
  through `AttrMap.get?`.
-/

set_option autoImplicit false

namespace Saml

/-! ## Errors -/

/-- The error kinds of the `zerrors` package. -/
inductive Kind where
  | Unknown
  | AlreadyExists
  | DeadlineExceeded
  | Internal
  | InvalidArgument
  | NotFound
  | PermissionDenied
  | PreconditionFailed
  | Unauthenticated
  | Unavailable
  | Unimplemented
  | ResourceExhausted
  deriving DecidableEq, Repr

/-- A Go `error` interface value. `nil` is the nil interface, `errorString` an
error without structure, `invalidResponseError` a `*saml.InvalidResponseError`
with its `PrivateErr` field, `wrapError` an error wrapping another one (its
`Unwrap` returns `err`), and `zitadelError` an error of the `zerrors` package (its
`Unwrap` returns `Parent`). -/
inductive GoError where
  | nil
  | errorString (msg : String)
  | invalidResponseError (PrivateErr : GoError)
  | wrapError (msg : String) (err : GoError)
  | zitadelError (kind : Kind) (Parent : GoError) (ID : String) (Message : String)
  deriving DecidableEq, Repr

/-- Modelled from the spec: `zerrors.ThrowInvalidArgument(parent, id, message)`, whose
source is not part of the files at hand. The spec asks that each error carry a stable
machine-readable kind plus structured context; the error built here has the kind
invalid-argument and records the parent error, the diagnostic code and the message. -/
def ThrowInvalidArgument (parent : GoError) (id message : String) : GoError :=
  GoError.zitadelError Kind.InvalidArgument parent id message

/-- The externally observable kind of an error value, `none` for an error that is
not of the `zerrors` package (and for nil). -/
def GoError.kind? : GoError → Option Kind
  | GoError.zitadelError k _ _ _ => some k
  | _ => none

/-- The message key carried by an error of the `zerrors` package. -/
def GoError.message? : GoError → Option String
  | GoError.zitadelError _ _ _ m => some m
  | _ => none

/-- The diagnostic code carried by an error of the `zerrors` package. -/
def GoError.id? : GoError → Option String
  | GoError.zitadelError _ _ i _ => some i
  | _ => none

/-- The parent carried by an error of the `zerrors` package. -/
def GoError.parent? : GoError → Option GoError
  | GoError.zitadelError _ p _ _ => some p
  | _ => none

/-- The call `errors.As(err, &invalidRespErr)` with a target of type
`*saml.InvalidResponseError`: walks the chain of wrapped errors and yields the
`PrivateErr` of the first `InvalidResponseError` on it, if there is one. -/
def errorsAsInvalidResponse : GoError → Option GoError
  | GoError.nil => none
  | GoError.errorString _ => none
  | GoError.invalidResponseError p => some p
  | GoError.wrapError _ e => errorsAsInvalidResponse e
  | GoError.zitadelError _ p _ _ => errorsAsInvalidResponse p

/-! ## The assertion (types of `github.com/crewjam/saml`) -/

/-- The type `saml.AttributeValue`, of which the code reads the field `Value`. -/
structure AttributeValue where
  Value : String
  deriving DecidableEq, Repr

/-- The type `saml.Attribute`: a name and its ordered values. -/
structure Attribute where
  Name : String
  Values : List AttributeValue
  deriving DecidableEq, Repr

/-- The type `saml.AttributeStatement`. -/
structure AttributeStatement where
  Attributes : List Attribute
  deriving DecidableEq, Repr

/-- The type `saml.NameID`, of which the code reads `Format` and `Value`. -/
structure NameID where
  Format : String
  Value : String
  deriving DecidableEq, Repr

/-- The type `saml.Subject`; its `NameID` is a pointer. -/
structure Subject where
  NameID : Option NameID
  deriving DecidableEq, Repr

/-- The type `saml.Assertion`; its `Subject` is a pointer. -/
structure Assertion where
  Subject : Option Subject
  AttributeStatements : List AttributeStatement
  deriving DecidableEq, Repr

/-- The constant `saml.TransientNameIDFormat`. -/
def TransientNameIDFormat : String :=
  "urn:oasis:names:tc:SAML:2.0:nameid-format:transient"

/-! ## The user mapper -/

/-- A Go `map[string][]string`, kept as an association list with unique keys. -/
abbrev AttrMap := List (String × List String)

/-- The read `m[k]` with its presence flag. -/
def AttrMap.get? (m : AttrMap) (k : String) : Option (List String) :=
  match m with
  | [] => none
  | (k', v) :: rest => if k' = k then some v else AttrMap.get? rest k

/-- The assignment `m[k] = v`: replaces the entry of `k` if there is one. -/
def AttrMap.set (m : AttrMap) (k : String) (v : List String) : AttrMap :=
  match m with
  | [] => [(k, v)]
  | (k', v') :: rest => if k' = k then (k, v) :: rest else (k', v') :: AttrMap.set rest k v

/-- Modelled from the spec: the `UserMapper` of the SAML provider, whose source is
not part of the files at hand. The spec describes the resolved identity as an
identifier string plus the mapping from attribute name to ordered values. -/
structure UserMapper where
  ID : String
  Attributes : AttrMap
  deriving DecidableEq, Repr

/-- Modelled from the spec: `NewUser()`, a user with no identifier and an empty
attribute mapping. -/
def NewUser : UserMapper := { ID := "", Attributes := [] }

/-- Modelled from the spec: `SetID`, which stores the resolved identifier. -/
def UserMapper.SetID (u : UserMapper) (id : String) : UserMapper := { u with ID := id }

/-! ## The session -/

/-- The inbound `http.Request`, opaque to the session. -/
structure Request where
  raw : String
  deriving DecidableEq, Repr

/-- The struct `TempResponseWriter`: a header map and the content buffer. A byte
slice and the Go string of the same bytes are both kept as a `String`. -/
structure TempResponseWriter where
  header : AttrMap
  content : String
  deriving DecidableEq, Repr

/-- The function `NewTempResponseWriter`: an empty header map and an empty buffer. -/
def NewTempResponseWriter : TempResponseWriter := { header := [], content := "" }

/-- The method `(*TempResponseWriter).Header`: the header map itself. -/
def TempResponseWriter.Header (w : TempResponseWriter) : AttrMap := w.header

/-- The method `(*TempResponseWriter).Write`: appends to the content buffer. -/
def TempResponseWriter.Write (w : TempResponseWriter) (content : String) :
    TempResponseWriter :=
  { w with content := w.content ++ content }

/-- The method `(*TempResponseWriter).WriteHeader`, whose body is empty. -/
def TempResponseWriter.WriteHeader (w : TempResponseWriter) (_statusCode : Nat) :
    TempResponseWriter := w

/-- The removal `delete(m, k)` of a key from a map. -/
def AttrMap.delete (m : AttrMap) (k : String) : AttrMap :=
  match m with
  | [] => []
  | (k', v) :: rest => if k' = k then rest else (k', v) :: AttrMap.delete rest k

/-- What a collaborator can do with the `http.ResponseWriter` it is handed: assign
or delete an entry of the map returned by `Header()` (the methods `Set`, `Add` and
`Del` of `http.Header` come down to these), call `Write`, or call `WriteHeader`. -/
inductive SinkCall where
  | headerStore (key : String) (values : List String)
  | headerDelete (key : String)
  | Write (content : String)
  | WriteHeader (statusCode : Nat)
  deriving DecidableEq, Repr

/-- The effect of one call of the collaborator on the response writer. -/
def TempResponseWriter.apply (w : TempResponseWriter) : SinkCall → TempResponseWriter
  | SinkCall.headerStore key values => { w with header := w.Header.set key values }
  | SinkCall.headerDelete key => { w with header := w.Header.delete key }
  | SinkCall.Write content => w.Write content
  | SinkCall.WriteHeader statusCode => w.WriteHeader statusCode

/-- The method `http.Header.Get` at an already canonical key such as `Location`: the
first value stored under the key, the empty string if there is none. -/
def headerGet (h : AttrMap) (key : String) : String :=
  match h.get? key with
  | some (v :: _) => v
  | _ => ""

/-- The protocol collaborator (`samlsp.Middleware` and its `ServiceProvider`):
`ParseResponse(request, possibleRequestIDs)` takes the request pointer and returns
an assertion pointer and an error; `HandleStartAuthFlow(w, r)` makes a sequence of
calls on the response writer it is handed. -/
structure Middleware where
  ParseResponse : Option Request → List String → Option Assertion × GoError
  HandleStartAuthFlow : Request → List SinkCall := fun _ => []

/-- The struct `Session`. -/
structure Session where
  ServiceProvider : Middleware
  state : String
  TransientMappingAttributeName : String
  RequestID : String
  Request : Option Request
  Assertion : Option Assertion

/-- The inner loop of `transientMappingID` over the attributes of one statement.
`none` is a panic, `some none` means the loop ran to its end without returning,
`some (some r)` that the function returned `r`. -/
def transientMappingAttributes (name : String) :
    List Attribute → Option (Option (String × GoError))
  | [] => some none
  | attr :: rest =>
    if attr.Name ≠ name then
      transientMappingAttributes name rest
    else if attr.Values.length ≠ 1 then
      some (some ("", ThrowInvalidArgument GoError.nil "SAML-Soij4"
        "Errors.Intent.MissingSingleMappingAttribute"))
    else
      match attr.Values[0]? with
      | none => none
      | some v => some (some (v.Value, GoError.nil))

/-- The outer loop of `transientMappingID` over the attribute statements, followed
by the final `return` of the function. `none` is a panic. -/
def transientMappingStatements (name : String) :
    List AttributeStatement → Option (String × GoError)
  | [] => some ("", ThrowInvalidArgument GoError.nil "SAML-swwg2"
      "Errors.Intent.MissingSingleMappingAttribute")
  | statement :: rest =>
    match transientMappingAttributes name statement.Attributes with
    | none => none
    | some (some r) => some r
    | some none => transientMappingStatements name rest

/-- The method `(*Session).transientMappingID`. `none` is a panic (a nil
`s.Assertion`, or an index out of range). -/
def Session.transientMappingID (s : Session) : Option (String × GoError) :=
  match s.Assertion with
  | none => none
  | some a => transientMappingStatements s.TransientMappingAttributeName a.AttributeStatements

/-- The method `(*Session).nameID`. `none` is a panic. -/
def Session.nameID (s : Session) : Option (String × GoError) :=
  match s.Assertion with
  | none => none
  | some a =>
    match a.Subject with
    | none =>
      if s.TransientMappingAttributeName = "" then
        some ("", ThrowInvalidArgument GoError.nil "SAML-EFG32" "Errors.Intent.MissingNameID")
      else s.transientMappingID
    | some subject =>
      match subject.NameID with
      | none =>
        if s.TransientMappingAttributeName = "" then
          some ("", ThrowInvalidArgument GoError.nil "SAML-EFG32" "Errors.Intent.MissingNameID")
        else s.transientMappingID
      | some nameID =>
        if nameID.Format = TransientNameIDFormat then s.transientMappingID
        else some (nameID.Value, GoError.nil)

/-- The loop of `FetchUser` that copies the values of one attribute:
`values[i] = attr.Values[i].Value` for every index. -/
def attributeValues (attr : Attribute) : List String :=
  attr.Values.map (fun v => v.Value)

/-- The inner loop of `FetchUser` over the attributes of one statement:
`userMapper.Attributes[attr.Name] = values`. -/
def fetchAttributes (m : AttrMap) : List Attribute → AttrMap
  | [] => m
  | attr :: rest => fetchAttributes (m.set attr.Name (attributeValues attr)) rest

/-- The outer loop of `FetchUser` over the attribute statements. -/
def fetchStatements (m : AttrMap) : List AttributeStatement → AttrMap
  | [] => m
  | statement :: rest => fetchStatements (fetchAttributes m statement.Attributes) rest

/-- What a call of `FetchUser` leaves behind: the session after the call, the
returned user (`none` is the nil interface), the returned error, and the calls made
to the collaborator's `ParseResponse`, each with its two arguments. -/
structure FetchUserResult where
  session : Session
  user : Option UserMapper
  err : GoError
  parseCalls : List (Option Request × List String)

/-- The method `(*Session).FetchUser`. `none` is a panic. -/
def Session.FetchUser (s : Session) : Option FetchUserResult :=
  if s.RequestID = "" ∨ s.Request = none then
    some { session := s, user := none,
           err := ThrowInvalidArgument GoError.nil "SAML-d09hy0wkex" "Errors.Intent.ResponseInvalid",
           parseCalls := [] }
  else
    let parsed := s.ServiceProvider.ParseResponse s.Request [s.RequestID]
    let s1 : Session := { s with Assertion := parsed.1 }
    let calls := [(s.Request, [s.RequestID])]
    if parsed.2 ≠ GoError.nil then
      match errorsAsInvalidResponse parsed.2 with
      | some privateErr =>
        some { session := s1, user := none,
               err := ThrowInvalidArgument privateErr "SAML-ajl3irfs" "Errors.Intent.ResponseInvalid",
               parseCalls := calls }
      | none =>
        some { session := s1, user := none,
               err := ThrowInvalidArgument parsed.2 "SAML-nuo0vphhh9" "Errors.Intent.ResponseInvalid",
               parseCalls := calls }
    else
      match s1.Assertion with
      | none => none
      | some a =>
        let userMapper : UserMapper :=
          { NewUser with Attributes := fetchStatements NewUser.Attributes a.AttributeStatements }
        match s1.nameID with
        | none => none
        | some (nameID, err) =>
          if err ≠ GoError.nil then
            some { session := s1, user := some userMapper, err := err, parseCalls := calls }
          else
            some { session := s1, user := some (userMapper.SetID nameID), err := GoError.nil,
                   parseCalls := calls }

/-- Modelled from the spec: `idp.Redirect(location)`, whose source is not part of
the files at hand: the alternative Redirect(url) of the result of the auth
initiation, carried by the pair `(string, bool)` that `GetAuth` returns. -/
def Redirect (redirectURL : String) : String × Bool := (redirectURL, true)

/-- Modelled from the spec: `idp.Form(html)`, whose source is not part of the files
at hand: the alternative Form(htmlBody) of the result of the auth initiation. -/
def Form (html : String) : String × Bool := (html, false)

/-- The response writer once the collaborator has made its calls on a fresh one. -/
def sinkAfter (calls : List SinkCall) : TempResponseWriter :=
  calls.foldl TempResponseWriter.apply NewTempResponseWriter

/-- The method `(*Session).GetAuth`. The request handed to the collaborator carries
only the URL parsed from `s.state`. -/
def Session.GetAuth (s : Session) : String × Bool :=
  let resp := sinkAfter (s.ServiceProvider.HandleStartAuthFlow { raw := s.state })
  let location := headerGet resp.Header "Location"
  if location ≠ "" then Redirect location
  else Form resp.content

/-! ## Specification vocabulary -/

/-- The contents of the `Write` calls of a sequence of calls, in order. -/
def writtenContents : List SinkCall → List String
  | [] => []
  | SinkCall.Write content :: rest => content :: writtenContents rest
  | _ :: rest => writtenContents rest

/-- The concatenation of a list of strings, in order. -/
def concatAll : List String → String
  | [] => ""
  | x :: rest => x ++ concatAll rest

/-- Whether a call assigns or deletes the entry of `key` in the header map. -/
def touchesHeader (key : String) : SinkCall → Bool
  | SinkCall.headerStore k _ => decide (k = key)
  | SinkCall.headerDelete k => decide (k = key)
  | _ => false


/-- All attributes of a list of attribute statements in iteration order: statements
in order, attributes within a statement in order. -/
def allAttributes : List AttributeStatement → List Attribute
  | [] => []
  | statement :: rest => statement.Attributes ++ allAttributes rest

/-- The attributes carrying the name `name`, in iteration order. -/
def matchingAttributes (name : String) (statements : List AttributeStatement) : List Attribute :=
  (allAttributes statements).filter (fun attr => decide (attr.Name = name))

/-- The error of `transientMappingID` for a matching attribute whose number of values
is not one. -/
def errNotSingleValue : GoError :=
  ThrowInvalidArgument GoError.nil "SAML-Soij4" "Errors.Intent.MissingSingleMappingAttribute"

/-- The error of `transientMappingID` when no attribute carries the name. -/
def errNoMappingAttribute : GoError :=
  ThrowInvalidArgument GoError.nil "SAML-swwg2" "Errors.Intent.MissingSingleMappingAttribute"

/-- The error of `nameID` when there is no NameID and no mapping attribute name. -/
def errMissingNameID : GoError :=
  ThrowInvalidArgument GoError.nil "SAML-EFG32" "Errors.Intent.MissingNameID"

/-- What the first matching attribute, if any, makes `transientMappingID` return. -/
def decideByFirst : Option Attribute → String × GoError
  | none => ("", errNoMappingAttribute)
  | some attr =>
    match attr.Values with
    | [v] => (v.Value, GoError.nil)
    | _ => ("", errNotSingleValue)

end Saml

namespace Domain

/-! ## The scope resolver -/

/-- The call `strings.HasPrefix(s, p)`. -/
def HasPrefix (s p : String) : Bool := p.data.isPrefixOf s.data

/-- The call `strings.HasSuffix(s, suffix)`. -/
def HasSuffix (s suffix : String) : Bool := suffix.data.reverse.isPrefixOf s.data.reverse

/-- The call `strings.TrimPrefix(s, p)`. -/
def TrimPrefix (s p : String) : String :=
  if HasPrefix s p then String.mk (s.data.drop p.data.length) else s

/-- The call `strings.TrimSuffix(s, suffix)`. -/
def TrimSuffix (s suffix : String) : String :=
  if HasSuffix s suffix then String.mk (s.data.take (s.data.length - suffix.data.length)) else s

/-- The constants of the scope grammar, declared outside the files at hand: the
project-audience prefix `ProjectIDScope`, the audience suffix `AudSuffix` and the
role-organization prefix `OrgRoleIDScope`. -/
structure ScopeGrammar where
  ProjectIDScope : String
  AudSuffix : String
  OrgRoleIDScope : String
  deriving DecidableEq, Repr

/-- A sample grammar, with the values these constants have in upstream ZITADEL. -/
def zitadelGrammar : ScopeGrammar :=
  { ProjectIDScope := "urn:zitadel:iam:org:project:id:"
    AudSuffix := ":aud"
    OrgRoleIDScope := "urn:zitadel:iam:org:roles:id:" }

/-- Modelled from the spec: the project-audience pattern
`<project-audience-prefix><projectID><audience-suffix>`, decided by a prefix check
and a suffix check. -/
def isProjectAudScope (g : ScopeGrammar) (scope : String) : Bool :=
  HasPrefix scope g.ProjectIDScope && HasSuffix scope g.AudSuffix

/-- Modelled from the spec: the client-audience pattern `<clientID><audience-suffix>`
with no project-audience prefix. -/
def isClientAudScope (g : ScopeGrammar) (scope : String) : Bool :=
  HasSuffix scope g.AudSuffix && !HasPrefix scope g.ProjectIDScope

/-- Modelled from the spec: the `projectID` of a project-audience scope, what is left
of the scope once the prefix and the suffix are removed. -/
def projectIDOf (g : ScopeGrammar) (scope : String) : String :=
  TrimSuffix (TrimPrefix scope g.ProjectIDScope) g.AudSuffix

/-- Modelled from the spec: the `clientID` of a client-audience scope, what is left
of the scope once the suffix is removed. -/
def clientIDOf (g : ScopeGrammar) (scope : String) : String :=
  TrimSuffix scope g.AudSuffix

/-- Modelled from the spec: `AddAudScopeToAudience(ctx, audience, scopes)`
(ComputeAudience), whose source is not part of the files at hand; only its test is.
The scopes are processed in input order: a project-audience scope appends its
`projectID` to the audience, otherwise a client-audience scope replaces the audience
by `[clientID]`, and any other scope has no effect. -/
def AddAudScopeToAudience (g : ScopeGrammar) (audience : List String) :
    List String → List String
  | [] => audience
  | scope :: rest =>
    if isProjectAudScope g scope then
      AddAudScopeToAudience g (audience ++ [projectIDOf g scope]) rest
    else if isClientAudScope g scope then
      AddAudScopeToAudience g [clientIDOf g scope] rest
    else
      AddAudScopeToAudience g audience rest

/-- The step of the left fold the audience computation is compared with: append the
`projectID` for a project-audience scope, replace the accumulator by `[clientID]` for
a client-audience scope, keep it for any other scope. -/
def audienceStep (g : ScopeGrammar) (acc : List String) (scope : String) : List String :=
  if isProjectAudScope g scope then acc ++ [projectIDOf g scope]
  else if isClientAudScope g scope then [clientIDOf g scope]
  else acc

/-- The loop of `RoleOrgIDsFromScope`, `orgIDs` being the slice built so far. -/
def roleOrgIDsLoop (g : ScopeGrammar) (orgIDs : List String) : List String → List String
  | [] => orgIDs
  | scope :: rest =>
    if HasPrefix scope g.OrgRoleIDScope then
      roleOrgIDsLoop g (orgIDs ++ [TrimPrefix scope g.OrgRoleIDScope]) rest
    else
      roleOrgIDsLoop g orgIDs rest

/-- Modelled from the spec: `RoleOrgIDsFromScope(scopes)` (ExtractRoleOrgIDs), whose
source is not part of the files at hand; only its test is. For each scope matching
the role-organization prefix the remainder `orgID` is collected in encounter order,
starting from the nil slice. The nil slice and the empty slice are both `[]`. -/
def RoleOrgIDsFromScope (g : ScopeGrammar) (scopes : List String) : List String :=
  roleOrgIDsLoop g [] scopes

end Domain

namespace Saml

/-! ## Sample values -/

/-- Two attribute statements: `mail` occurs in both, `uid` has one value and
`groups` has two. -/
def sampleStatements : List AttributeStatement :=
  [ { Attributes := [ { Name := "mail", Values := [⟨"bob@old.example"⟩] },
                      { Name := "uid", Values := [⟨"bob"⟩] } ] },
    { Attributes := [ { Name := "groups", Values := [⟨"admin"⟩, ⟨"dev"⟩] },
                      { Name := "mail", Values := [⟨"bob@new.example"⟩] } ] } ]

/-- An assertion over `sampleStatements` with the given subject. -/
def sampleAssertion (subject : Option Subject) : Assertion :=
  { Subject := subject, AttributeStatements := sampleStatements }

/-- A subject whose NameID has the given format and the value `alice`. -/
def sampleSubject (format : String) : Subject :=
  { NameID := some { Format := format, Value := "alice" } }

/-- The persistent NameID format of SAML 2.0. -/
def persistentFormat : String := "urn:oasis:names:tc:SAML:2.0:nameid-format:persistent"

/-- A collaborator whose `ParseResponse` returns the same pair for every call. -/
def fixedParser (result : Option Assertion × GoError) : Middleware :=
  { ParseResponse := fun _ _ => result }

/-- A session awaiting its response, whose collaborator will return `parsed`. -/
def sampleSession (name : String) (parsed : Option Assertion × GoError)
    (current : Option Assertion) : Session :=
  { ServiceProvider := fixedParser parsed
    state := ""
    TransientMappingAttributeName := name
    RequestID := "request-1"
    Request := some { raw := "SAMLResponse" }
    Assertion := current }

/-- Two attribute statements in which `uid` occurs twice, each time with one
value. -/
def repeatedStatements : List AttributeStatement :=
  [ { Attributes := [ { Name := "uid", Values := [⟨"first"⟩] } ] },
    { Attributes := [ { Name := "uid", Values := [⟨"second"⟩] } ] } ]

/-- An assertion whose NameID has the transient format and which has no attribute
statement. -/
def transientOnlyAssertion : Assertion :=
  { Subject := some (sampleSubject TransientNameIDFormat), AttributeStatements := [] }

/-- A session whose collaborator makes the given calls on the response writer. -/
def authSession (calls : List SinkCall) : Session :=
  { ServiceProvider := { ParseResponse := fun _ _ => (none, GoError.nil)
                         HandleStartAuthFlow := fun _ => calls }
    state := ""
    TransientMappingAttributeName := ""
    RequestID := "request-1"
    Request := none
    Assertion := none }

/-- The calls of a redirect binding that also writes a body. -/
def redirectCalls : List SinkCall :=
  [ SinkCall.Write "<a href=",
    SinkCall.headerStore "Location" ["https://idp.example/sso?SAMLRequest=abc"],
    SinkCall.headerStore "Content-Type" ["text/html"],
    SinkCall.WriteHeader 302,
    SinkCall.Write "/>" ]

/-- The calls of a POST binding: headers other than Location and a body written in
three pieces. -/
def formCalls : List SinkCall :=
  [ SinkCall.headerStore "Content-Type" ["text/html"],
    SinkCall.WriteHeader 200,
    SinkCall.Write "<html>",
    SinkCall.Write "<form/>",
    SinkCall.Write "</html>" ]

/-- An assertion with a nil Subject, a statement without attributes and an attribute
without values. -/
def sparseAssertion : Assertion :=
  { Subject := none
    AttributeStatements := [ { Attributes := [] },
                             { Attributes := [ { Name := "uid", Values := [] } ] } ] }

/-- An assertion whose NameID has the persistent format and the empty value. -/
def emptyNameIDAssertion : Assertion :=
  { Subject := some { NameID := some { Format := persistentFormat, Value := "" } }
    AttributeStatements := [] }

/-- An assertion whose NameID is transient and whose `uid` attribute has the empty
string as its single value. -/
def emptyMappingAssertion : Assertion :=
  { Subject := some (sampleSubject TransientNameIDFormat)
    AttributeStatements := [ { Attributes := [ { Name := "uid", Values := [⟨""⟩] } ] } ] }

/-- An assertion with a transient NameID over `repeatedStatements`. -/
def repeatedAssertion : Assertion :=
  { Subject := some (sampleSubject TransientNameIDFormat)
    AttributeStatements := repeatedStatements }

/-- A Subject whose NameID is nil. -/
def noNameIDSubject : Subject := { NameID := none }

/-- An assertion whose Subject has no NameID and whose `uid` attribute has no
value. -/
def sparseNoNameIDAssertion : Assertion :=
  { Subject := some noNameIDSubject
    AttributeStatements := [ { Attributes := [] },
                             { Attributes := [ { Name := "uid", Values := [] } ] } ] }

/-- A session awaiting its response whose assertion will have a Subject without
NameID and whose mapping attribute `groups` will come with two values. -/
def ambiguousSession : Session :=
  sampleSession "groups" (some (sampleAssertion (some noNameIDSubject)), GoError.nil) none

/-- What `FetchUser` leaves behind on `ambiguousSession`. -/
def ambiguousResult : FetchUserResult :=
  { session := { ambiguousSession with
                 Assertion := some (sampleAssertion (some noNameIDSubject)) }
    user := some { ID := "", Attributes := fetchStatements [] sampleStatements }
    err := errNotSingleValue
    parseCalls := [(some { raw := "SAMLResponse" }, ["request-1"])] }

/-! ## Lemmas on the loops -/

theorem transientMappingAttributes_eq (name : String) (attrs : List Attribute) :
    transientMappingAttributes name attrs =
      match attrs.find? (fun attr => decide (attr.Name = name)) with
      | none => some none
      | some attr => some (some (decideByFirst (some attr))) := by
  induction attrs with
  | nil => rfl
  | cons x rest ih =>
    unfold transientMappingAttributes
    by_cases hx : x.Name = name
    · simp only [hx, ne_eq, not_true_eq_false, ↓reduceIte, List.find?, decide_True]
      rcases hv : x.Values with _ | ⟨v, _ | ⟨w, vs⟩⟩ <;>
        simp [decideByFirst, hv, errNotSingleValue]
    · simp only [ne_eq, hx, not_false_eq_true, ↓reduceIte, List.find?, decide_False]
      exact ih

theorem transientMappingStatements_eq (name : String) (statements : List AttributeStatement) :
    transientMappingStatements name statements =
      some (decideByFirst ((matchingAttributes name statements).head?)) := by
  induction statements with
  | nil => rfl
  | cons st rest ih =>
    unfold transientMappingStatements
    rw [transientMappingAttributes_eq]
    simp only [matchingAttributes, allAttributes, List.filter_append]
    cases hf : st.Attributes.find? (fun attr => decide (attr.Name = name)) with
    | none =>
      have hnil : st.Attributes.filter (fun attr => decide (attr.Name = name)) = [] := by
        rw [List.filter_eq_nil_iff]
        intro x hx
        exact List.find?_eq_none.mp hf x hx
      simp only [hnil, List.nil_append]
      exact ih
    | some attr =>
      have hhead : (st.Attributes.filter (fun attr => decide (attr.Name = name))).head? =
          some attr := by
        rw [← hf]; exact List.filter_head? _ _
      cases hl : st.Attributes.filter (fun attr => decide (attr.Name = name)) with
      | nil => rw [hl] at hhead; simp at hhead
      | cons y ys =>
        rw [hl] at hhead
        simp only [List.head?_cons, Option.some.injEq] at hhead
        simp [hhead]

theorem transientMappingID_eq (s : Session) (a : Assertion) (hA : s.Assertion = some a) :
    s.transientMappingID = some (decideByFirst
      ((matchingAttributes s.TransientMappingAttributeName a.AttributeStatements).head?)) := by
  unfold Session.transientMappingID
  rw [hA]
  exact transientMappingStatements_eq _ _

theorem nameID_isSome (s : Session) (a : Assertion) (hA : s.Assertion = some a) :
    ∃ r, s.nameID = some r := by
  have ht := transientMappingID_eq s a hA
  unfold Session.nameID
  rw [hA, ht]
  rcases a with ⟨_ | ⟨_ | n⟩, stmts⟩ <;> simp only [] <;> split_ifs <;> exact ⟨_, rfl⟩

theorem FetchUser_parsed (s : Session) (a : Assertion)
    (hID : s.RequestID ≠ "") (hReq : s.Request ≠ none)
    (hP : s.ServiceProvider.ParseResponse s.Request [s.RequestID] = (some a, GoError.nil)) :
    s.FetchUser =
      match ({ s with Assertion := some a } : Session).nameID with
      | none => none
      | some (nameID, err) =>
        if err ≠ GoError.nil then
          some { session := { s with Assertion := some a },
                 user := some { ID := "", Attributes := fetchStatements [] a.AttributeStatements },
                 err := err, parseCalls := [(s.Request, [s.RequestID])] }
        else
          some { session := { s with Assertion := some a },
                 user := some { ID := nameID,
                                Attributes := fetchStatements [] a.AttributeStatements },
                 err := GoError.nil, parseCalls := [(s.Request, [s.RequestID])] } := by
  unfold Session.FetchUser
  simp only [hID, hReq, or_self, ↓reduceIte, hP, ne_eq, not_true_eq_false]
  rfl

/-! ## Claims on identifier resolution -/

/-- C1: when the assertion has a Subject with a NameID whose Format is not the
transient format, `nameID` returns exactly `NameID.Value` with a nil error, whatever
the configured mapping attribute name and the attribute statements are; and
`FetchUser`, when the parse succeeds with such an assertion, returns a nil error and a
user whose ID is that value. -/
theorem C1_literal_nameID (s : Session) (a : Assertion) (subject : Subject) (n : NameID)
    (hS : a.Subject = some subject) (hN : subject.NameID = some n)
    (hF : n.Format ≠ TransientNameIDFormat) :
    (s.Assertion = some a → s.nameID = some (n.Value, GoError.nil)) ∧
    (s.RequestID ≠ "" → s.Request ≠ none →
      s.ServiceProvider.ParseResponse s.Request [s.RequestID] = (some a, GoError.nil) →
      ∃ r u, s.FetchUser = some r ∧ r.err = GoError.nil ∧ r.user = some u ∧
        u.ID = n.Value) := by
  have key : ∀ t : Session, t.Assertion = some a → t.nameID = some (n.Value, GoError.nil) := by
    intro t ht
    unfold Session.nameID
    simp [ht, hS, hN, hF]
  refine ⟨key s, ?_⟩
  intro hID hReq hP
  rw [FetchUser_parsed s a hID hReq hP, key _ rfl]
  exact ⟨_, _, rfl, rfl, rfl, rfl⟩

theorem C1_literal_nameID_witness :
    (sampleSession "uid" (some (sampleAssertion (some (sampleSubject persistentFormat))),
        GoError.nil) (some (sampleAssertion (some (sampleSubject persistentFormat))))).nameID
      = some ("alice", GoError.nil) ∧
    ∃ r u, (sampleSession "uid" (some (sampleAssertion (some (sampleSubject persistentFormat))),
        GoError.nil) none).FetchUser = some r ∧ r.err = GoError.nil ∧ r.user = some u ∧
      u.ID = "alice" :=
  ⟨(C1_literal_nameID _ (sampleAssertion (some (sampleSubject persistentFormat)))
      (sampleSubject persistentFormat) { Format := persistentFormat, Value := "alice" }
      rfl rfl (by decide)).1 rfl,
   (C1_literal_nameID (sampleSession "uid"
      (some (sampleAssertion (some (sampleSubject persistentFormat))), GoError.nil) none)
      (sampleAssertion (some (sampleSubject persistentFormat)))
      (sampleSubject persistentFormat) { Format := persistentFormat, Value := "alice" }
      rfl rfl (by decide)).2 (by decide) (by decide) rfl⟩

/-- C2: when the NameID has the transient format, the result of `nameID` is exactly
the result of `transientMappingID`, the literal `NameID.Value` playing no part; in
particular, when the first attribute carrying the configured name (hence also when
the only one) has exactly one value `v`, the resolved identifier is `v`. -/
theorem C2_transient_nameID (s : Session) (a : Assertion) (subject : Subject) (n : NameID)
    (hA : s.Assertion = some a) (hS : a.Subject = some subject) (hN : subject.NameID = some n)
    (hF : n.Format = TransientNameIDFormat) :
    s.nameID = s.transientMappingID ∧
    ∀ attr v,
      (matchingAttributes s.TransientMappingAttributeName a.AttributeStatements).head? =
        some attr →
      attr.Values = [v] → s.nameID = some (v.Value, GoError.nil) := by
  have h1 : s.nameID = s.transientMappingID := by
    unfold Session.nameID
    simp [hA, hS, hN, hF]
  refine ⟨h1, ?_⟩
  intro attr v hhead hv
  rw [h1, transientMappingID_eq s a hA, hhead]
  simp [decideByFirst, hv]

theorem C2_transient_nameID_witness :
    (sampleSession "uid" (none, GoError.nil)
        (some (sampleAssertion (some (sampleSubject TransientNameIDFormat))))).nameID =
      (sampleSession "uid" (none, GoError.nil)
        (some (sampleAssertion (some (sampleSubject TransientNameIDFormat))))).transientMappingID ∧
    (sampleSession "uid" (none, GoError.nil)
        (some (sampleAssertion (some (sampleSubject TransientNameIDFormat))))).nameID =
      some ("bob", GoError.nil) :=
  have h := C2_transient_nameID
    (sampleSession "uid" (none, GoError.nil)
      (some (sampleAssertion (some (sampleSubject TransientNameIDFormat)))))
    (sampleAssertion (some (sampleSubject TransientNameIDFormat)))
    (sampleSubject TransientNameIDFormat) { Format := TransientNameIDFormat, Value := "alice" }
    rfl rfl rfl rfl
  ⟨h.1, h.2 { Name := "uid", Values := [⟨"bob"⟩] } ⟨"bob"⟩ (by decide) rfl⟩

/-- C3, as stated, fails: in `repeatedStatements` the name `uid` is matched twice,
and the resolution still succeeds, with the value of the first match. -/
theorem C3_multiple_matches_counterexample :
    ¬ (1 < (matchingAttributes "uid" repeatedStatements).length →
        ∃ v e, (sampleSession "uid" (none, GoError.nil)
            (some { Subject := none, AttributeStatements := repeatedStatements })).transientMappingID
          = some (v, e) ∧ e ≠ GoError.nil) := by
  intro h
  obtain ⟨v, e, he, hne⟩ := h (by decide)
  have hv : (sampleSession "uid" (none, GoError.nil)
      (some { Subject := none, AttributeStatements := repeatedStatements })).transientMappingID
      = some ("first", GoError.nil) := by decide
  rw [hv] at he
  simp only [Option.some.injEq, Prod.mk.injEq] at he
  exact hne he.2.symm

/-- C3, amended: transient-mapping resolution succeeds if and only if the first
attribute, in iteration order, that carries the configured name has exactly one
value, and it then returns that value; when no attribute carries the name, and when
the first one that does has zero values or more than one, it fails with an
invalid-argument error whose message is Errors.Intent.MissingSingleMappingAttribute. -/
theorem C3_first_match_single_value (s : Session) (a : Assertion)
    (hA : s.Assertion = some a) :
    (∀ v, s.transientMappingID = some (v, GoError.nil) ↔
      ∃ attr, (matchingAttributes s.TransientMappingAttributeName a.AttributeStatements).head?
          = some attr ∧ attr.Values = [⟨v⟩]) ∧
    (matchingAttributes s.TransientMappingAttributeName a.AttributeStatements = [] →
      s.transientMappingID = some ("", ThrowInvalidArgument GoError.nil "SAML-swwg2"
        "Errors.Intent.MissingSingleMappingAttribute")) ∧
    (∀ attr, (matchingAttributes s.TransientMappingAttributeName a.AttributeStatements).head?
          = some attr → attr.Values.length ≠ 1 →
      s.transientMappingID = some ("", ThrowInvalidArgument GoError.nil "SAML-Soij4"
        "Errors.Intent.MissingSingleMappingAttribute")) := by
  rw [transientMappingID_eq s a hA]
  refine ⟨?_, ?_, ?_⟩
  · intro v
    cases hh : (matchingAttributes s.TransientMappingAttributeName a.AttributeStatements).head? with
    | none => simp [decideByFirst, errNoMappingAttribute, ThrowInvalidArgument]
    | some attr =>
      rcases hv : attr.Values with _ | ⟨⟨w⟩, _ | ⟨w2, ws⟩⟩ <;>
        simp [decideByFirst, hv, errNotSingleValue, ThrowInvalidArgument]
  · intro hnil
    rw [hnil]
    rfl
  · intro attr hhead hlen
    rw [hhead]
    rcases hv : attr.Values with _ | ⟨w, _ | ⟨w2, ws⟩⟩
    · simp [decideByFirst, hv, errNotSingleValue]
    · rw [hv] at hlen; simp at hlen
    · simp [decideByFirst, hv, errNotSingleValue]

theorem C3_first_match_single_value_witness :
    ((sampleSession "uid" (none, GoError.nil)
        (some { Subject := none, AttributeStatements := repeatedStatements })).transientMappingID
        = some ("first", GoError.nil) ↔
      ∃ attr, (matchingAttributes "uid" repeatedStatements).head? = some attr ∧
        attr.Values = [⟨"first"⟩]) ∧
    (sampleSession "groups" (none, GoError.nil) (some (sampleAssertion none))).transientMappingID
      = some ("", ThrowInvalidArgument GoError.nil "SAML-Soij4"
        "Errors.Intent.MissingSingleMappingAttribute") :=
  ⟨(C3_first_match_single_value
      (sampleSession "uid" (none, GoError.nil)
        (some { Subject := none, AttributeStatements := repeatedStatements }))
      { Subject := none, AttributeStatements := repeatedStatements } rfl).1 "first",
   (C3_first_match_single_value
      (sampleSession "groups" (none, GoError.nil) (some (sampleAssertion none)))
      (sampleAssertion none) rfl).2.2
      { Name := "groups", Values := [⟨"admin"⟩, ⟨"dev"⟩] } (by decide) (by decide)⟩

/-- C4: when the assertion has no Subject, or a Subject with no NameID: with an empty
mapping attribute name `nameID` fails with the invalid-argument error whose message
is Errors.Intent.MissingNameID, whatever the attribute statements are; with a
non-empty one its result is exactly the result of `transientMappingID`. -/
theorem C4_missing_nameID (s : Session) (a : Assertion) (hA : s.Assertion = some a)
    (hNo : a.Subject = none ∨ ∃ subject, a.Subject = some subject ∧ subject.NameID = none) :
    (s.TransientMappingAttributeName = "" →
      s.nameID = some ("", ThrowInvalidArgument GoError.nil "SAML-EFG32"
        "Errors.Intent.MissingNameID")) ∧
    (s.TransientMappingAttributeName ≠ "" → s.nameID = s.transientMappingID) := by
  unfold Session.nameID
  rcases hNo with hS | ⟨subject, hS, hN⟩
  · refine ⟨fun h => ?_, fun h => ?_⟩ <;> simp [hA, hS, h]
  · refine ⟨fun h => ?_, fun h => ?_⟩ <;> simp [hA, hS, hN, h]

theorem C4_missing_nameID_witness :
    (sampleSession "" (none, GoError.nil) (some (sampleAssertion none))).nameID =
      some ("", ThrowInvalidArgument GoError.nil "SAML-EFG32" "Errors.Intent.MissingNameID") ∧
    (sampleSession "uid" (none, GoError.nil)
        (some (sampleAssertion (some { NameID := none })))).nameID =
      (sampleSession "uid" (none, GoError.nil)
        (some (sampleAssertion (some { NameID := none })))).transientMappingID :=
  ⟨(C4_missing_nameID (sampleSession "" (none, GoError.nil) (some (sampleAssertion none)))
      (sampleAssertion none) rfl (Or.inl rfl)).1 rfl,
   (C4_missing_nameID
      (sampleSession "uid" (none, GoError.nil) (some (sampleAssertion (some { NameID := none }))))
      (sampleAssertion (some { NameID := none })) rfl (Or.inr ⟨_, rfl, rfl⟩)).2 (by decide)⟩

/-- C5, evaluated where it fails: with a NameID of the transient format, no mapping
attribute name configured and no attribute in the assertion, `nameID` does not return
the missing-identifier error (message Errors.Intent.MissingNameID) but the error of
the mapping resolution (message Errors.Intent.MissingSingleMappingAttribute); and
when an attribute with the empty name and a single value is present, resolution
succeeds with that value. -/
theorem C5_transient_without_mapping_name :
    (sampleSession "" (none, GoError.nil) (some transientOnlyAssertion)).nameID =
      some ("", ThrowInvalidArgument GoError.nil "SAML-swwg2"
        "Errors.Intent.MissingSingleMappingAttribute") ∧
    (sampleSession "" (none, GoError.nil) (some transientOnlyAssertion)).nameID ≠
      some ("", ThrowInvalidArgument GoError.nil "SAML-EFG32" "Errors.Intent.MissingNameID") ∧
    (sampleSession "" (none, GoError.nil)
      (some { Subject := some (sampleSubject TransientNameIDFormat),
              AttributeStatements := [ { Attributes := [ { Name := "", Values := [⟨"x"⟩] } ] } ] })).nameID
      = some ("x", GoError.nil) := by
  decide

/-! ## The attribute mapping -/

theorem AttrMap.get?_set (m : AttrMap) (k k' : String) (v : List String) :
    (m.set k v).get? k' = if k = k' then some v else m.get? k' := by
  induction m with
  | nil => simp [AttrMap.set, AttrMap.get?]
  | cons p rest ih =>
    obtain ⟨k0, v0⟩ := p
    unfold AttrMap.set
    by_cases h0 : k0 = k
    · subst h0
      by_cases h1 : k0 = k' <;> simp [AttrMap.get?, h1]
    · simp only [h0, ↓reduceIte, AttrMap.get?, ih]
      by_cases h1 : k0 = k'
      · subst h1
        simp [Ne.symm h0]
      · simp [h1]

theorem AttrMap.keys_set (m : AttrMap) (k : String) (v : List String) :
    (m.set k v).map Prod.fst = if k ∈ m.map Prod.fst then m.map Prod.fst
      else m.map Prod.fst ++ [k] := by
  induction m with
  | nil => simp [AttrMap.set]
  | cons p rest ih =>
    obtain ⟨k0, v0⟩ := p
    unfold AttrMap.set
    by_cases h0 : k0 = k
    · subst h0
      simp
    · have h0' : ¬ k = k0 := fun h => h0 h.symm
      simp only [h0, ↓reduceIte, List.map_cons, ih, List.mem_cons, h0', false_or]
      split_ifs <;> simp

theorem AttrMap.nodup_set (m : AttrMap) (k : String) (v : List String)
    (h : (m.map Prod.fst).Nodup) : ((m.set k v).map Prod.fst).Nodup := by
  rw [AttrMap.keys_set]
  split_ifs with hk
  · exact h
  · exact List.Nodup.append h (List.nodup_singleton k) (by simpa using hk)

theorem getLast?_cons_or {α β : Type} (f : α → β) (x : α) (l : List α) (d : Option β) :
    (((x :: l).getLast?).map f).or d = ((l.getLast?).map f).or (some (f x)) := by
  rw [List.getLast?_cons]
  cases l.getLast? <;> simp

theorem fetchAttributes_get? (m : AttrMap) (attrs : List Attribute) (name : String) :
    (fetchAttributes m attrs).get? name =
      (((attrs.filter (fun attr => decide (attr.Name = name))).getLast?).map
        attributeValues).or (m.get? name) := by
  induction attrs generalizing m with
  | nil => simp [fetchAttributes]
  | cons x rest ih =>
    unfold fetchAttributes
    rw [ih, AttrMap.get?_set]
    by_cases hx : x.Name = name
    · simp only [hx, ↓reduceIte, List.filter_cons, decide_True]
      rw [getLast?_cons_or]
    · simp [hx, List.filter_cons]

theorem fetchAttributes_nodup (m : AttrMap) (attrs : List Attribute)
    (h : (m.map Prod.fst).Nodup) : ((fetchAttributes m attrs).map Prod.fst).Nodup := by
  induction attrs generalizing m with
  | nil => exact h
  | cons x rest ih => exact ih _ (AttrMap.nodup_set m _ _ h)

theorem fetchStatements_get? (m : AttrMap) (statements : List AttributeStatement)
    (name : String) :
    (fetchStatements m statements).get? name =
      (((matchingAttributes name statements).getLast?).map attributeValues).or
        (m.get? name) := by
  induction statements generalizing m with
  | nil => simp [fetchStatements, matchingAttributes, allAttributes]
  | cons st rest ih =>
    unfold fetchStatements
    rw [ih, fetchAttributes_get?]
    simp only [matchingAttributes, allAttributes, List.filter_append, List.getLast?_append]
    cases (List.filter (fun attr => decide (attr.Name = name)) (allAttributes rest)).getLast? <;>
      simp

theorem fetchStatements_nodup (m : AttrMap) (statements : List AttributeStatement)
    (h : (m.map Prod.fst).Nodup) : ((fetchStatements m statements).map Prod.fst).Nodup := by
  induction statements generalizing m with
  | nil => exact h
  | cons st rest ih => exact ih _ (fetchAttributes_nodup m _ h)

theorem fetchStatements_empty_get? (statements : List AttributeStatement) (name : String) :
    (fetchStatements [] statements).get? name =
      ((matchingAttributes name statements).getLast?).map
        (fun attr => attr.Values.map (fun v => v.Value)) := by
  rw [fetchStatements_get?]
  cases (matchingAttributes name statements).getLast? <;> simp [AttrMap.get?, attributeValues]

/-! ## Claims on `FetchUser` -/

/-- C6: if RequestID is the empty string or Request is nil, `FetchUser` returns a nil
user and an invalid-argument error, makes no call to the collaborator's
`ParseResponse`, and leaves the Assertion field of the session as it was. -/
theorem C6_missing_correlation_data (s : Session)
    (h : s.RequestID = "" ∨ s.Request = none) :
    ∃ r, s.FetchUser = some r ∧ r.user = none ∧
      r.err = ThrowInvalidArgument GoError.nil "SAML-d09hy0wkex" "Errors.Intent.ResponseInvalid" ∧
      r.err.kind? = some Kind.InvalidArgument ∧
      r.parseCalls = [] ∧ r.session.Assertion = s.Assertion := by
  unfold Session.FetchUser
  rw [if_pos h]
  exact ⟨_, rfl, rfl, rfl, rfl, rfl, rfl⟩

theorem C6_missing_correlation_data_witness :
    ∃ r, ({ sampleSession "uid" (some (sampleAssertion none), GoError.nil)
              (some transientOnlyAssertion) with RequestID := "" } : Session).FetchUser = some r ∧
      r.user = none ∧
      r.err = ThrowInvalidArgument GoError.nil "SAML-d09hy0wkex" "Errors.Intent.ResponseInvalid" ∧
      r.err.kind? = some Kind.InvalidArgument ∧
      r.parseCalls = [] ∧ r.session.Assertion = some transientOnlyAssertion :=
  C6_missing_correlation_data
    { sampleSession "uid" (some (sampleAssertion none), GoError.nil)
        (some transientOnlyAssertion) with RequestID := "" } (Or.inl rfl)

/-- C7: when the parse succeeds and `nameID` fails, `FetchUser` returns that error
together with a non-nil user whose identifier is empty and whose attribute mapping is
the full flattened mapping of the assertion (each name that occurs mapped to the
values of the last attribute carrying it); when RequestID or Request is missing, and
when `ParseResponse` returns an error, the returned user is nil. -/
theorem C7_partial_user_on_nameID_failure (s : Session) :
    (∀ a id e, s.RequestID ≠ "" → s.Request ≠ none →
      s.ServiceProvider.ParseResponse s.Request [s.RequestID] = (some a, GoError.nil) →
      ({ s with Assertion := some a } : Session).nameID = some (id, e) → e ≠ GoError.nil →
      ∃ r u, s.FetchUser = some r ∧ r.err = e ∧ r.user = some u ∧ u.ID = "" ∧
        ∀ name, u.Attributes.get? name =
          ((matchingAttributes name a.AttributeStatements).getLast?).map
            (fun attr => attr.Values.map (fun v => v.Value))) ∧
    (s.RequestID = "" ∨ s.Request = none →
      ∃ r, s.FetchUser = some r ∧ r.err ≠ GoError.nil ∧ r.user = none) ∧
    (s.RequestID ≠ "" → s.Request ≠ none →
      (s.ServiceProvider.ParseResponse s.Request [s.RequestID]).2 ≠ GoError.nil →
      ∃ r, s.FetchUser = some r ∧ r.err ≠ GoError.nil ∧ r.user = none) := by
  refine ⟨?_, ?_, ?_⟩
  · intro a id e hID hReq hP hN he
    rw [FetchUser_parsed s a hID hReq hP, hN]
    simp only [ne_eq, he, not_false_eq_true, ↓reduceIte]
    exact ⟨_, _, rfl, rfl, rfl, rfl, fun name => fetchStatements_empty_get? _ name⟩
  · intro h
    unfold Session.FetchUser
    rw [if_pos h]
    exact ⟨_, rfl, by simp [ThrowInvalidArgument], rfl⟩
  · intro hID hReq hE
    unfold Session.FetchUser
    simp only [hID, hReq, or_self, ↓reduceIte, ne_eq, hE, not_false_eq_true]
    cases errorsAsInvalidResponse (s.ServiceProvider.ParseResponse s.Request [s.RequestID]).2 <;>
      exact ⟨_, rfl, by simp [ThrowInvalidArgument], rfl⟩

theorem C7_partial_user_on_nameID_failure_witness :
    ∃ r u, (sampleSession "groups" (some (sampleAssertion (some noNameIDSubject)), GoError.nil) none).FetchUser
        = some r ∧
      r.err = ThrowInvalidArgument GoError.nil "SAML-Soij4"
        "Errors.Intent.MissingSingleMappingAttribute" ∧
      r.user = some u ∧ u.ID = "" ∧
      ∀ name, u.Attributes.get? name =
        ((matchingAttributes name (sampleAssertion (some noNameIDSubject)).AttributeStatements).getLast?).map
          (fun attr => attr.Values.map (fun v => v.Value)) :=
  (C7_partial_user_on_nameID_failure
    (sampleSession "groups" (some (sampleAssertion (some noNameIDSubject)), GoError.nil) none)).1
    (sampleAssertion (some noNameIDSubject)) ""
    (ThrowInvalidArgument GoError.nil "SAML-Soij4" "Errors.Intent.MissingSingleMappingAttribute")
    (by decide) (by decide) rfl (by decide) (by decide)

/-- C8: for every parsed assertion, `FetchUser` returns a user whose attribute mapping
maps each name to the values, in their original order, of the last attribute carrying
that name in iteration order (earlier attributes of the same name are discarded, not
concatenated); its keys are exactly the attribute names that occur in some attribute
statement, each key once. -/
theorem C8_attribute_mapping (s : Session) (a : Assertion)
    (hID : s.RequestID ≠ "") (hReq : s.Request ≠ none)
    (hP : s.ServiceProvider.ParseResponse s.Request [s.RequestID] = (some a, GoError.nil)) :
    ∃ r u, s.FetchUser = some r ∧ r.user = some u ∧
      (∀ name, u.Attributes.get? name =
        ((matchingAttributes name a.AttributeStatements).getLast?).map
          (fun attr => attr.Values.map (fun v => v.Value))) ∧
      (∀ name, (u.Attributes.get? name).isSome ↔
        ∃ attr ∈ allAttributes a.AttributeStatements, attr.Name = name) ∧
      (u.Attributes.map Prod.fst).Nodup := by
  have hkeys : ∀ name,
      ((fetchStatements [] a.AttributeStatements).get? name).isSome ↔
        ∃ attr ∈ allAttributes a.AttributeStatements, attr.Name = name := by
    intro name
    rw [fetchStatements_empty_get?]
    cases hl : (matchingAttributes name a.AttributeStatements).getLast? with
    | none =>
      rw [List.getLast?_eq_none_iff] at hl
      simp only [Option.map_none', Option.isSome_none, Bool.false_eq_true, false_iff]
      rintro ⟨attr, hmem, hname⟩
      have : attr ∈ matchingAttributes name a.AttributeStatements := by
        simp [matchingAttributes, hmem, hname]
      rw [hl] at this
      simp at this
    | some attr =>
      have hmem := List.mem_of_getLast?_eq_some hl
      simp only [matchingAttributes, List.mem_filter, decide_eq_true_eq] at hmem
      simp only [Option.map_some', Option.isSome_some, true_iff]
      exact ⟨attr, hmem.1, hmem.2⟩
  have hnodup : ((fetchStatements [] a.AttributeStatements).map Prod.fst).Nodup :=
    fetchStatements_nodup [] _ (by simp)
  rw [FetchUser_parsed s a hID hReq hP]
  obtain ⟨⟨id, e⟩, hN⟩ := nameID_isSome ({ s with Assertion := some a } : Session) a rfl
  rw [hN]
  by_cases he : e = GoError.nil
  · simp only [ne_eq, he, not_true_eq_false, ↓reduceIte]
    exact ⟨_, _, rfl, rfl, fun name => fetchStatements_empty_get? _ name, hkeys, hnodup⟩
  · simp only [ne_eq, he, not_false_eq_true, ↓reduceIte]
    exact ⟨_, _, rfl, rfl, fun name => fetchStatements_empty_get? _ name, hkeys, hnodup⟩

theorem C8_attribute_mapping_witness :
    ∃ r u, (sampleSession "uid"
        (some (sampleAssertion (some (sampleSubject persistentFormat))), GoError.nil)
        none).FetchUser = some r ∧ r.user = some u ∧
      (∀ name, u.Attributes.get? name =
        ((matchingAttributes name sampleStatements).getLast?).map
          (fun attr => attr.Values.map (fun v => v.Value))) ∧
      (∀ name, (u.Attributes.get? name).isSome ↔
        ∃ attr ∈ allAttributes sampleStatements, attr.Name = name) ∧
      (u.Attributes.map Prod.fst).Nodup :=
  C8_attribute_mapping
    (sampleSession "uid"
      (some (sampleAssertion (some (sampleSubject persistentFormat))), GoError.nil) none)
    (sampleAssertion (some (sampleSubject persistentFormat))) (by decide) (by decide) rfl

/-- C9: for every error returned by the collaborator's `ParseResponse`, `FetchUser`
returns a nil user and an error of kind invalid-argument with the message
Errors.Intent.ResponseInvalid; an `InvalidResponseError` on the chain of the parse
error changes only the diagnostic code and the wrapped parent error. -/
theorem C9_parse_error_is_invalid_argument (s : Session)
    (hID : s.RequestID ≠ "") (hReq : s.Request ≠ none)
    (hE : (s.ServiceProvider.ParseResponse s.Request [s.RequestID]).2 ≠ GoError.nil) :
    ∃ r, s.FetchUser = some r ∧ r.user = none ∧
      r.err.kind? = some Kind.InvalidArgument ∧
      r.err.message? = some "Errors.Intent.ResponseInvalid" ∧
      (∀ privateErr,
        errorsAsInvalidResponse (s.ServiceProvider.ParseResponse s.Request [s.RequestID]).2
          = some privateErr →
        r.err = ThrowInvalidArgument privateErr "SAML-ajl3irfs" "Errors.Intent.ResponseInvalid") ∧
      (errorsAsInvalidResponse (s.ServiceProvider.ParseResponse s.Request [s.RequestID]).2
          = none →
        r.err = ThrowInvalidArgument (s.ServiceProvider.ParseResponse s.Request [s.RequestID]).2
          "SAML-nuo0vphhh9" "Errors.Intent.ResponseInvalid") := by
  unfold Session.FetchUser
  simp only [hID, hReq, or_self, ↓reduceIte, ne_eq, hE, not_false_eq_true]
  cases hAs :
      errorsAsInvalidResponse (s.ServiceProvider.ParseResponse s.Request [s.RequestID]).2 with
  | none => exact ⟨_, rfl, rfl, rfl, rfl, by simp, fun _ => rfl⟩
  | some p => exact ⟨_, rfl, rfl, rfl, rfl, by simp, by simp⟩

theorem C9_parse_error_is_invalid_argument_witness :
    ∃ r, (sampleSession "uid"
        (none, GoError.wrapError "parse"
          (GoError.invalidResponseError (GoError.errorString "bad signature"))) none).FetchUser
        = some r ∧ r.user = none ∧
      r.err.kind? = some Kind.InvalidArgument ∧
      r.err = ThrowInvalidArgument (GoError.errorString "bad signature") "SAML-ajl3irfs"
        "Errors.Intent.ResponseInvalid" :=
  have h := C9_parse_error_is_invalid_argument
    (sampleSession "uid"
      (none, GoError.wrapError "parse"
        (GoError.invalidResponseError (GoError.errorString "bad signature"))) none)
    (by decide) (by decide) (by decide)
  h.elim fun r hr => ⟨r, hr.1, hr.2.1, hr.2.2.1, hr.2.2.2.2.1 _ rfl⟩

end Saml

namespace Domain

/-! ## Claims on the scope resolver -/

theorem AddAudScopeToAudience_eq_foldl (g : ScopeGrammar) (audience scopes : List String) :
    AddAudScopeToAudience g audience scopes = scopes.foldl (audienceStep g) audience := by
  induction scopes generalizing audience with
  | nil => rfl
  | cons scope rest ih =>
    unfold AddAudScopeToAudience
    simp only [List.foldl_cons, audienceStep]
    split_ifs <;> exact ih _

theorem isProjectAudScope_of_client (g : ScopeGrammar) (scope : String)
    (h : isClientAudScope g scope = true) : isProjectAudScope g scope = false := by
  unfold isClientAudScope at h
  unfold isProjectAudScope
  cases hp : HasPrefix scope g.ProjectIDScope <;> simp_all

theorem foldl_audienceStep_no_client (g : ScopeGrammar) (acc scopes : List String)
    (h : ∀ x ∈ scopes, isClientAudScope g x = false) :
    scopes.foldl (audienceStep g) acc =
      acc ++ (scopes.filter (isProjectAudScope g)).map (projectIDOf g) := by
  induction scopes generalizing acc with
  | nil => simp
  | cons scope rest ih =>
    have hrest : ∀ x ∈ rest, isClientAudScope g x = false :=
      fun x hx => h x (List.mem_cons_of_mem _ hx)
    have hc : isClientAudScope g scope = false := h scope (List.mem_cons_self _ _)
    rw [List.foldl_cons, ih _ hrest]
    cases hp : isProjectAudScope g scope <;> simp [audienceStep, hp, hc, List.filter_cons]

/-- The six cases of `TestAddAudScopeToAudience`, over the sample grammar. -/
theorem AddAudScopeToAudience_test_cases :
    AddAudScopeToAudience zitadelGrammar ["existing"] [] = ["existing"] ∧
    AddAudScopeToAudience zitadelGrammar ["existing"] ["openid", "profile"] = ["existing"] ∧
    AddAudScopeToAudience zitadelGrammar ["existing"]
      ["urn:zitadel:iam:org:project:id:myproject:aud"] = ["existing", "myproject"] ∧
    AddAudScopeToAudience zitadelGrammar ["existing", "other"] ["myclient:aud"] = ["myclient"] ∧
    AddAudScopeToAudience zitadelGrammar ["existing"] ["client1:aud", "client2:aud"]
      = ["client2"] ∧
    AddAudScopeToAudience zitadelGrammar ["existing"]
      ["urn:zitadel:iam:org:project:id:myproject:aud", "myclient:aud"] = ["myclient"] := by
  decide

/-- C10: for every initial audience and every scope list, `AddAudScopeToAudience`
equals the left fold over the scopes, from the initial audience, of the step that
appends the projectID for a project-audience scope, replaces the accumulator by
`[clientID]` for a client-audience scope and ignores any other scope; hence, when the
list contains a client-audience scope, the result is the clientID of the last such
scope followed by the projectIDs of the project-audience scopes after it. -/
theorem C10_audience_is_left_fold (g : ScopeGrammar) (audience scopes : List String) :
    AddAudScopeToAudience g audience scopes = scopes.foldl (audienceStep g) audience ∧
    ∀ before c after, scopes = before ++ c :: after →
      isClientAudScope g c = true → (∀ x ∈ after, isClientAudScope g x = false) →
      AddAudScopeToAudience g audience scopes =
        clientIDOf g c :: (after.filter (isProjectAudScope g)).map (projectIDOf g) := by
  refine ⟨AddAudScopeToAudience_eq_foldl g audience scopes, ?_⟩
  intro before c after hsplit hc hafter
  rw [AddAudScopeToAudience_eq_foldl, hsplit, List.foldl_append, List.foldl_cons,
    foldl_audienceStep_no_client g _ after hafter]
  simp [audienceStep, hc, isProjectAudScope_of_client g c hc]

theorem C10_audience_is_left_fold_witness :
    AddAudScopeToAudience zitadelGrammar ["existing"]
      ["urn:zitadel:iam:org:project:id:early:aud", "client1:aud", "openid", "client2:aud",
       "urn:zitadel:iam:org:project:id:late:aud", "profile"] = ["client2", "late"] :=
  (C10_audience_is_left_fold zitadelGrammar ["existing"]
    ["urn:zitadel:iam:org:project:id:early:aud", "client1:aud", "openid", "client2:aud",
     "urn:zitadel:iam:org:project:id:late:aud", "profile"]).2
    ["urn:zitadel:iam:org:project:id:early:aud", "client1:aud", "openid"] "client2:aud"
    ["urn:zitadel:iam:org:project:id:late:aud", "profile"] rfl (by decide) (by decide)

/-! ## Prefix and suffix of a concatenation -/

theorem HasPrefix_append (p rest : String) : HasPrefix (p ++ rest) p = true := by
  simp [HasPrefix]

theorem TrimPrefix_append (p rest : String) : TrimPrefix (p ++ rest) p = rest := by
  simp [TrimPrefix, HasPrefix]

theorem HasSuffix_append (front suffix : String) :
    HasSuffix (front ++ suffix) suffix = true := by
  simp [HasSuffix]

theorem TrimSuffix_append (front suffix : String) :
    TrimSuffix (front ++ suffix) suffix = front := by
  simp [TrimSuffix, HasSuffix]

theorem projectScope_spec (g : ScopeGrammar) (projectID : String) :
    isProjectAudScope g (g.ProjectIDScope ++ projectID ++ g.AudSuffix) = true ∧
    isClientAudScope g (g.ProjectIDScope ++ projectID ++ g.AudSuffix) = false ∧
    projectIDOf g (g.ProjectIDScope ++ projectID ++ g.AudSuffix) = projectID := by
  have h1 : HasPrefix (g.ProjectIDScope ++ projectID ++ g.AudSuffix) g.ProjectIDScope = true := by
    rw [String.append_assoc]; exact HasPrefix_append _ _
  have h2 : HasSuffix (g.ProjectIDScope ++ projectID ++ g.AudSuffix) g.AudSuffix = true :=
    HasSuffix_append _ _
  refine ⟨by simp [isProjectAudScope, h1, h2], by simp [isClientAudScope, h1], ?_⟩
  unfold projectIDOf
  rw [String.append_assoc, TrimPrefix_append, TrimSuffix_append]

theorem roleOrgIDsLoop_eq (g : ScopeGrammar) (orgIDs scopes : List String) :
    roleOrgIDsLoop g orgIDs scopes =
      orgIDs ++ (scopes.filter (fun scope => HasPrefix scope g.OrgRoleIDScope)).map
        (fun scope => TrimPrefix scope g.OrgRoleIDScope) := by
  induction scopes generalizing orgIDs with
  | nil => simp [roleOrgIDsLoop]
  | cons scope rest ih =>
    unfold roleOrgIDsLoop
    cases hp : HasPrefix scope g.OrgRoleIDScope <;> simp [ih, List.filter_cons, hp]

/-- The four cases of `TestRoleOrgIDsFromScope`, over the sample grammar. -/
theorem RoleOrgIDsFromScope_test_cases :
    RoleOrgIDsFromScope zitadelGrammar [] = [] ∧
    RoleOrgIDsFromScope zitadelGrammar ["foo", "bar"] = [] ∧
    RoleOrgIDsFromScope zitadelGrammar ["urn:zitadel:iam:org:roles:id:123"] = ["123"] ∧
    RoleOrgIDsFromScope zitadelGrammar ["foo", "urn:zitadel:iam:org:roles:id:123"] = ["123"] := by
  decide

/-- On the algorithm of spec section 4.1 a project-audience scope that comes after
the client-audience scope is appended to the replaced audience. The test file has
only the opposite order, project-audience before client-audience. -/
theorem AddAudScopeToAudience_client_then_project :
    AddAudScopeToAudience zitadelGrammar ["existing"]
      ["myclient:aud", "urn:zitadel:iam:org:project:id:myproject:aud"]
      = ["myclient", "myproject"] := by
  decide

/-- When neither a client-audience nor a project-audience scope follows a
client-audience scope, the audience is the single-element list of its clientID,
whatever comes before it. -/
theorem AddAudScopeToAudience_last_client_alone (g : ScopeGrammar)
    (audience scopes : List String) (before after : List String) (c : String)
    (hsplit : scopes = before ++ c :: after) (hc : isClientAudScope g c = true)
    (hafter : ∀ x ∈ after, isClientAudScope g x = false ∧ isProjectAudScope g x = false) :
    AddAudScopeToAudience g audience scopes = [clientIDOf g c] := by
  have hnoClient : ∀ x ∈ after, isClientAudScope g x = false := fun x hx => (hafter x hx).1
  have hfilter : after.filter (isProjectAudScope g) = [] := by
    rw [List.filter_eq_nil_iff]
    intro x hx
    simp [(hafter x hx).2]
  rw [AddAudScopeToAudience_eq_foldl, hsplit, List.foldl_append, List.foldl_cons,
    foldl_audienceStep_no_client g _ after hnoClient, hfilter]
  simp [audienceStep, hc, isProjectAudScope_of_client g c hc]

/-- C12: for every initial audience and every scope list with no client-audience
scope, `AddAudScopeToAudience` returns the initial audience followed by the
projectIDs of the project-audience scopes in input order, without de-duplication, so
the result is non-empty when the initial audience is; a scope
`ProjectIDScope + projectID + AudSuffix` is a project-audience scope with that
projectID, and a scope with the project-audience prefix and the audience suffix is
treated as project-audience, never as client-audience. -/
theorem C12_project_audience_appends (g : ScopeGrammar) (audience scopes : List String)
    (h : ∀ x ∈ scopes, isClientAudScope g x = false) :
    AddAudScopeToAudience g audience scopes =
      audience ++ (scopes.filter (isProjectAudScope g)).map (projectIDOf g) ∧
    (audience ≠ [] → AddAudScopeToAudience g audience scopes ≠ []) ∧
    (∀ projectIDs : List String,
      AddAudScopeToAudience g audience
        (projectIDs.map (fun projectID => g.ProjectIDScope ++ projectID ++ g.AudSuffix))
        = audience ++ projectIDs) ∧
    (∀ scope, HasPrefix scope g.ProjectIDScope = true → HasSuffix scope g.AudSuffix = true →
      isProjectAudScope g scope = true ∧ isClientAudScope g scope = false ∧
      AddAudScopeToAudience g audience [scope] = audience ++ [projectIDOf g scope]) := by
  have h1 : AddAudScopeToAudience g audience scopes =
      audience ++ (scopes.filter (isProjectAudScope g)).map (projectIDOf g) := by
    rw [AddAudScopeToAudience_eq_foldl, foldl_audienceStep_no_client g _ _ h]
  refine ⟨h1, ?_, ?_, ?_⟩
  · intro hne
    rw [h1]
    simp [hne]
  · intro projectIDs
    have hno : ∀ x ∈ projectIDs.map (fun projectID => g.ProjectIDScope ++ projectID ++ g.AudSuffix),
        isClientAudScope g x = false := by
      intro x hx
      obtain ⟨projectID, _, rfl⟩ := List.mem_map.mp hx
      exact (projectScope_spec g projectID).2.1
    rw [AddAudScopeToAudience_eq_foldl, foldl_audienceStep_no_client g _ _ hno]
    congr 1
    induction projectIDs with
    | nil => rfl
    | cons projectID rest ih =>
      have hrest : ∀ x ∈ rest.map (fun projectID => g.ProjectIDScope ++ projectID ++ g.AudSuffix),
          isClientAudScope g x = false :=
        fun x hx => hno x (by simp only [List.map_cons]; exact List.mem_cons_of_mem _ hx)
      simp only [List.map_cons, List.filter_cons, (projectScope_spec g projectID).1,
        ↓reduceIte, (projectScope_spec g projectID).2.2, ih hrest]
  · intro scope hp hs
    have hproj : isProjectAudScope g scope = true := by simp [isProjectAudScope, hp, hs]
    have hcl : isClientAudScope g scope = false := by simp [isClientAudScope, hp]
    refine ⟨hproj, hcl, ?_⟩
    simp [AddAudScopeToAudience, hproj]

theorem C12_project_audience_appends_witness :
    AddAudScopeToAudience zitadelGrammar ["existing"]
      ["urn:zitadel:iam:org:project:id:myproject:aud", "openid",
       "urn:zitadel:iam:org:project:id:myproject:aud"]
      = ["existing", "myproject", "myproject"] :=
  (C12_project_audience_appends zitadelGrammar ["existing"]
    ["urn:zitadel:iam:org:project:id:myproject:aud", "openid",
     "urn:zitadel:iam:org:project:id:myproject:aud"] (by decide)).1

/-- C13: for every audience and every scope list none of whose elements matches the
project-audience or the client-audience pattern, the empty list included,
`AddAudScopeToAudience` returns the audience unchanged. -/
theorem C13_unrecognized_scopes_are_inert (g : ScopeGrammar) (audience scopes : List String)
    (h : ∀ x ∈ scopes, isProjectAudScope g x = false ∧ isClientAudScope g x = false) :
    AddAudScopeToAudience g audience scopes = audience := by
  have hfilter : scopes.filter (isProjectAudScope g) = [] := by
    rw [List.filter_eq_nil_iff]
    intro x hx
    simp [(h x hx).1]
  rw [AddAudScopeToAudience_eq_foldl,
    foldl_audienceStep_no_client g _ _ (fun x hx => (h x hx).2), hfilter]
  simp

theorem C13_unrecognized_scopes_are_inert_witness :
    AddAudScopeToAudience zitadelGrammar ["existing"] ["openid", "profile"] = ["existing"] ∧
    AddAudScopeToAudience zitadelGrammar ["existing"] [] = ["existing"] :=
  ⟨C13_unrecognized_scopes_are_inert zitadelGrammar ["existing"] ["openid", "profile"]
      (by decide),
   C13_unrecognized_scopes_are_inert zitadelGrammar ["existing"] [] (by decide)⟩

/-- C14: for every scope list, `RoleOrgIDsFromScope` returns exactly the list, in
encounter order, of the remainders of those scopes that start with the
role-organization prefix, the prefix removed; the remainder of
`OrgRoleIDScope + orgID` is `orgID`; the result is empty when no scope matches, for
the empty input too. The function is total and returns no error. -/
theorem C14_role_org_ids (g : ScopeGrammar) (scopes : List String) :
    RoleOrgIDsFromScope g scopes =
      (scopes.filter (fun scope => HasPrefix scope g.OrgRoleIDScope)).map
        (fun scope => TrimPrefix scope g.OrgRoleIDScope) ∧
    ((∀ x ∈ scopes, HasPrefix x g.OrgRoleIDScope = false) →
      RoleOrgIDsFromScope g scopes = []) ∧
    RoleOrgIDsFromScope g [] = [] ∧
    (∀ orgID, HasPrefix (g.OrgRoleIDScope ++ orgID) g.OrgRoleIDScope = true ∧
      TrimPrefix (g.OrgRoleIDScope ++ orgID) g.OrgRoleIDScope = orgID) ∧
    (∀ orgIDs : List String,
      RoleOrgIDsFromScope g (orgIDs.map (fun orgID => g.OrgRoleIDScope ++ orgID)) = orgIDs) := by
  have h1 : ∀ l, RoleOrgIDsFromScope g l =
      (l.filter (fun scope => HasPrefix scope g.OrgRoleIDScope)).map
        (fun scope => TrimPrefix scope g.OrgRoleIDScope) := by
    intro l
    unfold RoleOrgIDsFromScope
    rw [roleOrgIDsLoop_eq]
    simp
  refine ⟨h1 scopes, ?_, rfl, fun orgID => ⟨HasPrefix_append _ _, TrimPrefix_append _ _⟩, ?_⟩
  · intro hno
    rw [h1]
    have : scopes.filter (fun scope => HasPrefix scope g.OrgRoleIDScope) = [] := by
      rw [List.filter_eq_nil_iff]
      intro x hx
      simp [hno x hx]
    rw [this]
    rfl
  · intro orgIDs
    rw [h1]
    induction orgIDs with
    | nil => rfl
    | cons orgID rest ih =>
      simp only [List.map_cons, List.filter_cons, HasPrefix_append, ↓reduceIte,
        TrimPrefix_append, ih]

theorem C14_role_org_ids_witness :
    RoleOrgIDsFromScope zitadelGrammar ["foo", "bar"] = [] :=
  (C14_role_org_ids zitadelGrammar ["foo", "bar"]).2.1 (by decide)

end Domain

namespace Saml

/-! ## Claims on the first match, totality and empty identifiers -/

theorem matchingAttributes_head_of_split (name : String) (statements : List AttributeStatement)
    (before after : List Attribute) (attr : Attribute)
    (hsplit : allAttributes statements = before ++ attr :: after)
    (hbefore : ∀ x ∈ before, x.Name ≠ name) (hattr : attr.Name = name) :
    (matchingAttributes name statements).head? = some attr := by
  have hnil : before.filter (fun x => decide (x.Name = name)) = [] := by
    rw [List.filter_eq_nil_iff]
    intro x hx
    simpa using hbefore x hx
  simp [matchingAttributes, hsplit, List.filter_append, hnil, List.filter_cons, hattr]

/-- C17: the result of `transientMappingID` is decided by the first attribute, in
iteration order, whose name is the configured one: exactly one value gives that
value, any other number of values gives the error, whatever attributes come after
it; so the resolved identifier can differ from the values that the returned
attribute mapping holds under that name, which are those of the last such
attribute. -/
theorem C17_first_attribute_decides (s : Session) (a : Assertion)
    (hA : s.Assertion = some a) :
    (∀ before attr after, allAttributes a.AttributeStatements = before ++ attr :: after →
      (∀ x ∈ before, x.Name ≠ s.TransientMappingAttributeName) →
      attr.Name = s.TransientMappingAttributeName →
      (∀ v, attr.Values = [v] → s.transientMappingID = some (v.Value, GoError.nil)) ∧
      (attr.Values.length ≠ 1 →
        s.transientMappingID = some ("", ThrowInvalidArgument GoError.nil "SAML-Soij4"
          "Errors.Intent.MissingSingleMappingAttribute"))) ∧
    (∃ r u, (sampleSession "uid" (some repeatedAssertion, GoError.nil) none).FetchUser = some r ∧
      r.err = GoError.nil ∧ r.user = some u ∧ u.ID = "first" ∧
      u.Attributes.get? "uid" = some ["second"]) := by
  refine ⟨?_, ?_⟩
  · intro before attr after hsplit hbefore hattr
    have hhead := matchingAttributes_head_of_split _ _ before after attr hsplit hbefore hattr
    rw [transientMappingID_eq s a hA, hhead]
    refine ⟨fun v hv => by simp [decideByFirst, hv], fun hlen => ?_⟩
    rcases hv : attr.Values with _ | ⟨w, _ | ⟨w2, ws⟩⟩
    · simp [decideByFirst, hv, errNotSingleValue]
    · rw [hv] at hlen; simp at hlen
    · simp [decideByFirst, hv, errNotSingleValue]
  · rw [FetchUser_parsed _ repeatedAssertion (by decide) (by decide) rfl]
    have hN : ({ sampleSession "uid" (some repeatedAssertion, GoError.nil) none with
        Assertion := some repeatedAssertion } : Session).nameID
        = some ("first", GoError.nil) := by decide
    rw [hN]
    exact ⟨_, _, rfl, rfl, rfl, rfl, by decide⟩

theorem C17_first_attribute_decides_witness :
    (sampleSession "uid" (none, GoError.nil) (some repeatedAssertion)).transientMappingID
      = some ("first", GoError.nil) :=
  ((C17_first_attribute_decides
    (sampleSession "uid" (none, GoError.nil) (some repeatedAssertion)) repeatedAssertion rfl).1
    [] { Name := "uid", Values := [⟨"first"⟩] } [ { Name := "uid", Values := [⟨"second"⟩] } ]
    rfl (by decide) rfl).1 ⟨"first"⟩ rfl

/-- C18: `nameID` and `transientMappingID` return on every non-nil assertion: a nil
Subject, a nil NameID, no attribute statement, a statement without attributes and an
attribute without values cause no nil dereference and no index out of range. -/
theorem C18_total_on_parsed_assertion (s : Session) (a : Assertion)
    (hA : s.Assertion = some a) :
    (∃ r, s.nameID = some r) ∧ (∃ r, s.transientMappingID = some r) :=
  ⟨nameID_isSome s a hA, ⟨_, transientMappingID_eq s a hA⟩⟩

theorem C18_total_on_parsed_assertion_witness :
    (∃ r, (sampleSession "uid" (none, GoError.nil) (some sparseAssertion)).nameID = some r) ∧
    (∃ r, (sampleSession "uid" (none, GoError.nil) (some sparseAssertion)).transientMappingID
      = some r) :=
  C18_total_on_parsed_assertion
    (sampleSession "uid" (none, GoError.nil) (some sparseAssertion)) sparseAssertion rfl

/-- C19: a successful `FetchUser` does not guarantee a non-empty identifier: with a
NameID of a non-transient format and the empty value, and with a transient NameID
whose mapping attribute has the empty string as its single value, `FetchUser`
returns a nil error and a user whose identifier is the empty string. -/
theorem C19_success_with_empty_identifier :
    (∃ r u, (sampleSession "uid" (some emptyNameIDAssertion, GoError.nil) none).FetchUser
        = some r ∧ r.err = GoError.nil ∧ r.user = some u ∧ u.ID = "") ∧
    (∃ r u, (sampleSession "uid" (some emptyMappingAssertion, GoError.nil) none).FetchUser
        = some r ∧ r.err = GoError.nil ∧ r.user = some u ∧ u.ID = "") := by
  refine ⟨?_, ?_⟩
  · rw [FetchUser_parsed _ emptyNameIDAssertion (by decide) (by decide) rfl]
    have hN : ({ sampleSession "uid" (some emptyNameIDAssertion, GoError.nil) none with
        Assertion := some emptyNameIDAssertion } : Session).nameID
        = some ("", GoError.nil) := by decide
    rw [hN]
    exact ⟨_, _, rfl, rfl, rfl, rfl⟩
  · rw [FetchUser_parsed _ emptyMappingAssertion (by decide) (by decide) rfl]
    have hN : ({ sampleSession "uid" (some emptyMappingAssertion, GoError.nil) none with
        Assertion := some emptyMappingAssertion } : Session).nameID
        = some ("", GoError.nil) := by decide
    rw [hN]
    exact ⟨_, _, rfl, rfl, rfl, rfl⟩

/-! ## Claims on the error values -/

theorem nameID_error_cases (s : Session) (a : Assertion) (hA : s.Assertion = some a)
    (id : String) (e : GoError) (hN : s.nameID = some (id, e)) (he : e ≠ GoError.nil) :
    (s.TransientMappingAttributeName = "" ∧
      (a.Subject = none ∨ ∃ subject, a.Subject = some subject ∧ subject.NameID = none) ∧
      e = ThrowInvalidArgument GoError.nil "SAML-EFG32" "Errors.Intent.MissingNameID") ∨
    e = ThrowInvalidArgument GoError.nil "SAML-Soij4"
      "Errors.Intent.MissingSingleMappingAttribute" ∨
    e = ThrowInvalidArgument GoError.nil "SAML-swwg2"
      "Errors.Intent.MissingSingleMappingAttribute" := by
  have hT : ∀ id' e', s.transientMappingID = some (id', e') → e' ≠ GoError.nil →
      e' = ThrowInvalidArgument GoError.nil "SAML-Soij4"
        "Errors.Intent.MissingSingleMappingAttribute" ∨
      e' = ThrowInvalidArgument GoError.nil "SAML-swwg2"
        "Errors.Intent.MissingSingleMappingAttribute" := by
    intro id' e' h hne
    rw [transientMappingID_eq s a hA] at h
    cases hh : (matchingAttributes s.TransientMappingAttributeName a.AttributeStatements).head? with
    | none =>
      rw [hh] at h
      simp only [decideByFirst, errNoMappingAttribute, Option.some.injEq, Prod.mk.injEq] at h
      exact Or.inr h.2.symm
    | some attr =>
      rw [hh] at h
      rcases hv : attr.Values with _ | ⟨w, _ | ⟨w2, ws⟩⟩ <;>
        simp only [decideByFirst, hv, errNotSingleValue, Option.some.injEq, Prod.mk.injEq] at h
      · exact Or.inl h.2.symm
      · exact absurd h.2.symm hne
      · exact Or.inl h.2.symm
  unfold Session.nameID at hN
  rw [hA] at hN
  simp only [] at hN
  rcases hS : a.Subject with _ | subject
  · rw [hS] at hN
    simp only [] at hN
    split_ifs at hN with hname
    · simp only [Option.some.injEq, Prod.mk.injEq] at hN
      exact Or.inl ⟨hname, Or.inl rfl, hN.2.symm⟩
    · exact Or.inr (hT id e hN he)
  · rw [hS] at hN
    simp only [] at hN
    rcases hNm : subject.NameID with _ | n
    · rw [hNm] at hN
      simp only [] at hN
      split_ifs at hN with hname
      · simp only [Option.some.injEq, Prod.mk.injEq] at hN
        exact Or.inl ⟨hname, Or.inr ⟨subject, rfl, hNm⟩, hN.2.symm⟩
      · exact Or.inr (hT id e hN he)
    · rw [hNm] at hN
      simp only [] at hN
      split_ifs at hN with hfmt
      · exact Or.inr (hT id e hN he)
      · simp only [Option.some.injEq, Prod.mk.injEq] at hN
        exact absurd hN.2.symm he

/-- C15, as stated, fails: the error for an ambiguous mapping attribute is the same
value whether the attribute is `groups` or `uid`, so the attribute name cannot be
read off the returned error. -/
theorem C15_attribute_name_not_carried_counterexample :
    ¬ ∃ nameOf : GoError → String,
      (∀ r, (sampleSession "groups" (some (sampleAssertion (some noNameIDSubject)), GoError.nil) none).FetchUser
        = some r → nameOf r.err = "groups") ∧
      (∀ r, (sampleSession "uid" (some sparseNoNameIDAssertion, GoError.nil) none).FetchUser
        = some r → nameOf r.err = "uid") := by
  rintro ⟨nameOf, h1, h2⟩
  have e1 : ∃ r, (sampleSession "groups" (some (sampleAssertion (some noNameIDSubject)), GoError.nil) none).FetchUser
      = some r ∧ r.err = errNotSingleValue := by
    rw [FetchUser_parsed _ (sampleAssertion (some noNameIDSubject)) (by decide) (by decide) rfl]
    have hN : ({ sampleSession "groups" (some (sampleAssertion (some noNameIDSubject)), GoError.nil) none with
        Assertion := some (sampleAssertion (some noNameIDSubject)) } : Session).nameID
        = some ("", errNotSingleValue) := by decide
    rw [hN]
    exact ⟨_, rfl, rfl⟩
  have e2 : ∃ r, (sampleSession "uid" (some sparseNoNameIDAssertion, GoError.nil) none).FetchUser
      = some r ∧ r.err = errNotSingleValue := by
    rw [FetchUser_parsed _ sparseNoNameIDAssertion (by decide) (by decide) rfl]
    have hN : ({ sampleSession "uid" (some sparseNoNameIDAssertion, GoError.nil) none with
        Assertion := some sparseNoNameIDAssertion } : Session).nameID
        = some ("", errNotSingleValue) := by decide
    rw [hN]
    exact ⟨_, rfl, rfl⟩
  obtain ⟨r1, hr1, he1⟩ := e1
  obtain ⟨r2, hr2, he2⟩ := e2
  have a1 := h1 r1 hr1
  have a2 := h2 r2 hr2
  rw [he1] at a1
  rw [he2, a1] at a2
  exact absurd a2 (by decide)

/-- C15, amended: every error returned by `FetchUser` has the same kind,
invalid-argument, and the failures are told apart by the message key and the
diagnostic code of the error value: Errors.Intent.ResponseInvalid for missing
correlation data or a rejected inbound message, Errors.Intent.MissingNameID
(SAML-EFG32) for a missing identifier, Errors.Intent.MissingSingleMappingAttribute
(SAML-Soij4 or SAML-swwg2) for an ambiguous or missing mapping attribute. The last
error is one of two fixed values and carries no attribute name. -/
theorem C15_failures_told_apart_by_message (s : Session) (r : FetchUserResult)
    (hr : s.FetchUser = some r) (he : r.err ≠ GoError.nil) :
    r.err.kind? = some Kind.InvalidArgument ∧
    (((s.RequestID = "" ∨ s.Request = none ∨
        (s.ServiceProvider.ParseResponse s.Request [s.RequestID]).2 ≠ GoError.nil) ∧
      r.err.message? = some "Errors.Intent.ResponseInvalid") ∨
     (∃ a, s.ServiceProvider.ParseResponse s.Request [s.RequestID] = (some a, GoError.nil) ∧
      s.TransientMappingAttributeName = "" ∧
      (a.Subject = none ∨ ∃ subject, a.Subject = some subject ∧ subject.NameID = none) ∧
      r.err = ThrowInvalidArgument GoError.nil "SAML-EFG32" "Errors.Intent.MissingNameID") ∨
     (∃ a, s.ServiceProvider.ParseResponse s.Request [s.RequestID] = (some a, GoError.nil) ∧
      (r.err = ThrowInvalidArgument GoError.nil "SAML-Soij4"
          "Errors.Intent.MissingSingleMappingAttribute" ∨
       r.err = ThrowInvalidArgument GoError.nil "SAML-swwg2"
          "Errors.Intent.MissingSingleMappingAttribute"))) := by
  by_cases hpre : s.RequestID = "" ∨ s.Request = none
  · unfold Session.FetchUser at hr
    rw [if_pos hpre] at hr
    simp only [Option.some.injEq] at hr
    subst hr
    refine ⟨rfl, Or.inl ⟨?_, rfl⟩⟩
    rcases hpre with h | h
    · exact Or.inl h
    · exact Or.inr (Or.inl h)
  · have hID : s.RequestID ≠ "" := fun h => hpre (Or.inl h)
    have hReq : s.Request ≠ none := fun h => hpre (Or.inr h)
    by_cases hE : (s.ServiceProvider.ParseResponse s.Request [s.RequestID]).2 = GoError.nil
    · rcases hP : s.ServiceProvider.ParseResponse s.Request [s.RequestID] with ⟨_ | a, e⟩
      · unfold Session.FetchUser at hr
        rw [hP] at hE
        simp only [] at hE
        simp [hpre, hP, hE] at hr
      · rw [hP] at hE
        simp only [] at hE
        subst hE
        rw [FetchUser_parsed s a hID hReq hP] at hr
        obtain ⟨⟨id, e⟩, hN⟩ := nameID_isSome ({ s with Assertion := some a } : Session) a rfl
        rw [hN] at hr
        by_cases hne : e = GoError.nil
        · simp only [hne, ne_eq, not_true_eq_false, ↓reduceIte, Option.some.injEq] at hr
          subst hr
          exact absurd rfl he
        · simp only [ne_eq, hne, not_false_eq_true, ↓reduceIte, Option.some.injEq] at hr
          subst hr
          rcases nameID_error_cases _ a rfl id e hN hne with ⟨h1, h2, h3⟩ | h | h
          · exact ⟨by rw [h3]; rfl, Or.inr (Or.inl ⟨a, rfl, h1, h2, h3⟩)⟩
          · exact ⟨by rw [h]; rfl, Or.inr (Or.inr ⟨a, rfl, Or.inl h⟩)⟩
          · exact ⟨by rw [h]; rfl, Or.inr (Or.inr ⟨a, rfl, Or.inr h⟩)⟩
    · unfold Session.FetchUser at hr
      simp only [hpre, ↓reduceIte, ne_eq, hE, not_false_eq_true] at hr
      cases hAs :
        errorsAsInvalidResponse (s.ServiceProvider.ParseResponse s.Request [s.RequestID]).2 with
      | none =>
        rw [hAs] at hr
        simp only [Option.some.injEq] at hr
        subst hr
        exact ⟨rfl, Or.inl ⟨Or.inr (Or.inr hE), rfl⟩⟩
      | some p =>
        rw [hAs] at hr
        simp only [Option.some.injEq] at hr
        subst hr
        exact ⟨rfl, Or.inl ⟨Or.inr (Or.inr hE), rfl⟩⟩

theorem C15_failures_told_apart_by_message_witness :
    ambiguousSession.FetchUser = some ambiguousResult ∧
    ambiguousResult.err.kind? = some Kind.InvalidArgument :=
  ⟨rfl, (C15_failures_told_apart_by_message ambiguousSession ambiguousResult rfl
    (by decide)).1⟩

/-! ## Claims on `GetAuth` -/

theorem AttrMap.get?_delete_ne (m : AttrMap) (k key : String) (h : k ≠ key) :
    (m.delete k).get? key = m.get? key := by
  induction m with
  | nil => rfl
  | cons p rest ih =>
    obtain ⟨k0, v0⟩ := p
    unfold AttrMap.delete
    by_cases h0 : k0 = k
    · subst h0
      simp [AttrMap.get?, h]
    · simp only [h0, ↓reduceIte, AttrMap.get?, ih]

theorem apply_content (w : TempResponseWriter) (calls : List SinkCall) :
    (calls.foldl TempResponseWriter.apply w).content =
      w.content ++ concatAll (writtenContents calls) := by
  induction calls generalizing w with
  | nil => simp [writtenContents, concatAll]
  | cons c rest ih =>
    rw [List.foldl_cons, ih]
    cases c <;>
      simp [TempResponseWriter.apply, TempResponseWriter.Write, TempResponseWriter.WriteHeader,
        writtenContents, concatAll, String.append_assoc]

theorem apply_header_untouched (key : String) (w : TempResponseWriter) (calls : List SinkCall)
    (h : ∀ c ∈ calls, touchesHeader key c = false) :
    (calls.foldl TempResponseWriter.apply w).header.get? key = w.header.get? key := by
  induction calls generalizing w with
  | nil => rfl
  | cons c rest ih =>
    have hc := h c (List.mem_cons_self _ _)
    rw [List.foldl_cons, ih _ (fun x hx => h x (List.mem_cons_of_mem _ hx))]
    cases c with
    | headerStore k v =>
      have hk : k ≠ key := by simpa [touchesHeader] using hc
      simp [TempResponseWriter.apply, TempResponseWriter.Header, AttrMap.get?_set, hk]
    | headerDelete k =>
      have hk : k ≠ key := by simpa [touchesHeader] using hc
      simp [TempResponseWriter.apply, TempResponseWriter.Header, AttrMap.get?_delete_ne _ _ _ hk]
    | Write content => rfl
    | WriteHeader code => rfl

theorem sinkAfter_content (calls : List SinkCall) :
    (sinkAfter calls).content = concatAll (writtenContents calls) := by
  unfold sinkAfter
  rw [apply_content]
  simp [NewTempResponseWriter]

theorem headerGet_eq_iff (h : AttrMap) (key location : String) (hne : location ≠ "") :
    headerGet h key = location ↔ ∃ rest, h.get? key = some (location :: rest) := by
  unfold headerGet
  rcases hg : h.get? key with _ | ⟨_ | ⟨v, vs⟩⟩
  · simp [Ne.symm hne]
  · simp [Ne.symm hne]
  · simp

/-- C16: `GetAuth` returns `Redirect(location)` if and only if, once the collaborator
has made its calls, the header map of the response writer holds under `Location` a
list of values whose first one is `location` and is non-empty; otherwise it returns
`Form(body)`, `body` being the concatenation, in order, of everything the
collaborator wrote with `Write`. A last assignment of a non-empty first value to
`Location` gives the redirect whatever was written to the body; when no call
touches `Location` the result is the form. -/
theorem C16_redirect_or_form (s : Session) (calls : List SinkCall)
    (hcalls : s.ServiceProvider.HandleStartAuthFlow { raw := s.state } = calls) :
    (∀ location, s.GetAuth = Redirect location ↔
      location ≠ "" ∧ ∃ rest, (sinkAfter calls).Header.get? "Location" = some (location :: rest)) ∧
    ((¬ ∃ location rest, location ≠ "" ∧
        (sinkAfter calls).Header.get? "Location" = some (location :: rest)) →
      s.GetAuth = Form (concatAll (writtenContents calls))) ∧
    (∀ before location rest after,
      calls = before ++ SinkCall.headerStore "Location" (location :: rest) :: after →
      (∀ c ∈ after, touchesHeader "Location" c = false) → location ≠ "" →
      s.GetAuth = Redirect location) ∧
    ((∀ c ∈ calls, touchesHeader "Location" c = false) →
      s.GetAuth = Form (concatAll (writtenContents calls))) := by
  have hG : s.GetAuth =
      if headerGet (sinkAfter calls).Header "Location" ≠ "" then
        Redirect (headerGet (sinkAfter calls).Header "Location")
      else Form (concatAll (writtenContents calls)) := by
    unfold Session.GetAuth
    simp only [hcalls, sinkAfter_content]
  have hiff : ∀ location, s.GetAuth = Redirect location ↔
      location ≠ "" ∧ ∃ rest, (sinkAfter calls).Header.get? "Location" = some (location :: rest) := by
    intro location
    rw [hG]
    constructor
    · intro h
      split_ifs at h with hne
      · simp only [Redirect, Prod.mk.injEq, and_true] at h
        rw [h] at hne
        exact ⟨hne, (headerGet_eq_iff _ _ _ hne).mp h⟩
      · simp [Redirect, Form] at h
    · rintro ⟨hne, hrest⟩
      have hget := (headerGet_eq_iff _ _ _ hne).mpr hrest
      rw [hget, if_pos hne]
  have hform : (¬ ∃ location rest, location ≠ "" ∧
        (sinkAfter calls).Header.get? "Location" = some (location :: rest)) →
      s.GetAuth = Form (concatAll (writtenContents calls)) := by
    intro hno
    rw [hG]
    split_ifs with hne
    · exact absurd ⟨_, (headerGet_eq_iff _ _ _ hne).mp rfl |>.choose, hne,
        (headerGet_eq_iff _ _ _ hne).mp rfl |>.choose_spec⟩ hno
    · rfl
  refine ⟨hiff, hform, ?_, ?_⟩
  · intro before location rest after hsplit hafter hne
    refine (hiff location).mpr ⟨hne, rest, ?_⟩
    unfold sinkAfter TempResponseWriter.Header
    rw [hsplit, List.foldl_append, List.foldl_cons, apply_header_untouched _ _ _ hafter]
    simp [TempResponseWriter.apply, TempResponseWriter.Header, AttrMap.get?_set]
  · intro huntouched
    apply hform
    rintro ⟨location, rest, _, hget⟩
    unfold sinkAfter TempResponseWriter.Header at hget
    rw [apply_header_untouched _ _ _ huntouched] at hget
    simp [NewTempResponseWriter, AttrMap.get?] at hget

theorem C16_redirect_or_form_witness :
    (authSession redirectCalls).GetAuth = Redirect "https://idp.example/sso?SAMLRequest=abc" ∧
    (authSession formCalls).GetAuth = Form "<html><form/></html>" :=
  ⟨(C16_redirect_or_form (authSession redirectCalls) redirectCalls rfl).2.2.1
      [SinkCall.Write "<a href="] "https://idp.example/sso?SAMLRequest=abc" []
      [SinkCall.headerStore "Content-Type" ["text/html"], SinkCall.WriteHeader 302,
       SinkCall.Write "/>"] rfl (by decide) (by decide),
   (C16_redirect_or_form (authSession formCalls) formCalls rfl).2.2.2 (by decide)⟩

end Saml
